import Mathlib

/-!
Shallow embedding of `src/components/Editor.js`: the `SimpleAwareness` class, the
socket event handlers installed in `handleEditorDidMount`, the remote-cursor
decoration lifecycle (`renderRemoteCursor` and its expiry timer), the auto-save
debouncer, the delta wire encoding, and (modelled from the spec, since the yjs
library is not part of this repository's sources) the document replica's merge.

JavaScript `Map`s keyed by client/event name are modelled as association lists;
JavaScript object identity (needed because `setLocalStateField` mutates the
record obtained from the map in place) is modelled with an explicit heap:
addresses are natural numbers, `objs` maps an address to the record stored
there, and the `states` map stores addresses, not records.
-/

/-- Lookup in an association-list model of a JS `Map` (`Map.prototype.get`). -/
def mapGet {α : Type} (k : String) : List (String × α) → Option α
  | [] => none
  | (k', v) :: rest => if k' = k then some v else mapGet k rest

/-- Update in an association-list model of a JS `Map` (`Map.prototype.set`):
replace the existing entry in place, or append a new one. The same function
also models setting a property on a JS object (`s[field] = value`), whose
record semantics are identical. -/
def mapSet {α : Type} (k : String) (v : α) : List (String × α) → List (String × α)
  | [] => [(k, v)]
  | (k', v') :: rest => if k' = k then (k, v) :: rest else (k', v') :: mapSet k v rest

theorem mapGet_mapSet_self {α : Type} (k : String) (v : α) (l : List (String × α)) :
    mapGet k (mapSet k v l) = some v := by
  induction l with
  | nil => simp [mapGet, mapSet]
  | cons p rest ih =>
    obtain ⟨k', v'⟩ := p
    by_cases h : k' = k
    · simp [mapGet, mapSet, h]
    · simp [mapGet, mapSet, h, ih]

theorem mapGet_mapSet_ne {α : Type} (k k' : String) (v : α) (l : List (String × α))
    (h : k' ≠ k) : mapGet k' (mapSet k v l) = mapGet k' l := by
  have hne : ¬ k = k' := fun hh => h hh.symm
  induction l with
  | nil => simp [mapGet, mapSet, hne]
  | cons p rest ih =>
    obtain ⟨k'', v''⟩ := p
    by_cases hk : k'' = k
    · subst hk
      simp [mapGet, mapSet, hne]
    · simp [mapGet, mapSet, hk, ih]

theorem mapSet_same {α : Type} (k : String) (v : α) (l : List (String × α))
    (h : mapGet k l = some v) : mapSet k v l = l := by
  induction l with
  | nil => simp [mapGet] at h
  | cons p rest ih =>
    obtain ⟨k', v'⟩ := p
    by_cases hk : k' = k
    · subst hk
      simp [mapGet] at h
      simp [mapSet, h]
    · simp [mapGet, hk] at h
      simp [mapSet, hk, ih h]

theorem mapGet_mem {α : Type} (k : String) (v : α) :
    ∀ l : List (String × α), mapGet k l = some v → (k, v) ∈ l := by
  intro l
  induction l with
  | nil => intro h; simp [mapGet] at h
  | cons p rest ih =>
    obtain ⟨k', v'⟩ := p
    intro h
    by_cases hk : k' = k
    · subst hk
      simp [mapGet] at h
      simp [h]
    · simp [mapGet, hk] at h
      simp [ih h]

/-- Model of the `SimpleAwareness` class of `src/components/Editor.js`.
`clientID` is the socket id passed to the constructor. `objs`/`nextAddr` form
the heap of JS record objects; `states` is the `Map` from client id to the
address of that client's state record; `handlers` is the `Map` from event name
to the `Set` of subscribed handlers (handlers named by numbers, insertion
ordered, duplicate-free by construction as a JS `Set` is); `emitted` logs the
`socket.emit('yjs-awareness', ...)` calls as (clientID, state address) pairs. -/
structure SimpleAwareness (V : Type) where
  clientID : String
  objs : Nat → List (String × V)
  nextAddr : Nat
  states : List (String × Nat)
  handlers : List (String × List Nat)
  emitted : List (String × Nat)

/-- Method `on(event, handler)`: create the event's `Set` if missing, then
`Set.prototype.add` the handler (no-op when already present). -/
def SimpleAwareness.on {V : Type} (a : SimpleAwareness V) (event : String) (h : Nat) :
    SimpleAwareness V :=
  match mapGet event a.handlers with
  | none => { a with handlers := mapSet event [h] a.handlers }
  | some hs =>
    { a with handlers := mapSet event (if h ∈ hs then hs else hs ++ [h]) a.handlers }

/-- Method `off(event, handler)`: `Set.prototype.delete` when the event has a
set, otherwise nothing. -/
def SimpleAwareness.off {V : Type} (a : SimpleAwareness V) (event : String) (h : Nat) :
    SimpleAwareness V :=
  match mapGet event a.handlers with
  | none => a
  | some hs => { a with handlers := mapSet event (hs.erase h) a.handlers }

/-- Method `notify(event)` invokes every handler in the event's set once, in
insertion order, with `{ states: this.states }`; this returns the list of
handler invocations it performs. -/
def SimpleAwareness.notifyCalls {V : Type} (a : SimpleAwareness V) (event : String) :
    List Nat :=
  (mapGet event a.handlers).getD []

/-- Method `getLocalState()`: the reference (address) of the local client's
state record in the `states` map, if any. -/
def SimpleAwareness.getLocalState {V : Type} (a : SimpleAwareness V) : Option Nat :=
  mapGet a.clientID a.states

/-- Method `setLocalState(state)`: store the given record reference under the
local client id, emit `yjs-awareness` with it, and notify `change` handlers
(the notification itself changes no awareness state). -/
def SimpleAwareness.setLocalState {V : Type} (a : SimpleAwareness V) (addr : Nat) :
    SimpleAwareness V :=
  { a with states := mapSet a.clientID addr a.states,
           emitted := a.emitted ++ [(a.clientID, addr)] }

/-- Method `setLocalStateField(field, value)`: `const s = this.getLocalState() || {};
s[field] = value; this.setLocalState(s);`. When a local record exists, `s` is
that very record, so the property write mutates the stored object in place;
otherwise `{}` allocates a fresh record. -/
def SimpleAwareness.setLocalStateField {V : Type} (a : SimpleAwareness V)
    (field : String) (value : V) : SimpleAwareness V :=
  match mapGet a.clientID a.states with
  | some addr =>
    SimpleAwareness.setLocalState
      { a with objs := fun n => if n = addr then mapSet field value (a.objs addr) else a.objs n }
      addr
  | none =>
    SimpleAwareness.setLocalState
      { a with objs := fun n => if n = a.nextAddr then mapSet field value [] else a.objs n,
               nextAddr := a.nextAddr + 1 }
      a.nextAddr

/-- Method `getStates()`: the `states` map itself. -/
def SimpleAwareness.getStates {V : Type} (a : SimpleAwareness V) : List (String × Nat) :=
  a.states

/-- Content view of a client's stored state: dereference the address held in
the `states` map. -/
def SimpleAwareness.stateView {V : Type} (a : SimpleAwareness V) (c : String) :
    Option (List (String × V)) :=
  (mapGet c a.states).map a.objs

/-- Heap well-formedness: every address stored in the `states` map was
allocated, i.e. lies below `nextAddr`. -/
def SimpleAwareness.WF {V : Type} (a : SimpleAwareness V) : Prop :=
  ∀ p ∈ a.states, p.2 < a.nextAddr

/-- Handler of `socket.on('yjs-awareness', ...)`: if the update's `clientID`
differs from the local socket id, store the (freshly deserialized) state
record under that id and notify `change`; otherwise do nothing. The returned
flag records whether `notify` ran. -/
def onYjsAwareness {V : Type} (a : SimpleAwareness V) (cid : String)
    (st : List (String × V)) : SimpleAwareness V × Bool :=
  if cid ≠ a.clientID then
    ({ a with objs := fun n => if n = a.nextAddr then st else a.objs n,
              nextAddr := a.nextAddr + 1,
              states := mapSet cid a.nextAddr a.states }, true)
  else (a, false)

/-- Model of the Monaco editor as the remote-cursor code observes it: a
disposed flag, the list of live cursor decorations as (owner userId,
decoration id) pairs, and the id allocator `deltaDecorations` draws from. -/
structure EditorState where
  isDisposed : Bool
  decs : List (String × Nat)
  nextId : Nat

/-- Model of `editor.deltaDecorations(old, new)` restricted to what the
component uses: remove the decorations whose ids are listed in `old`, then
append the `new` descriptors (assigning them fresh ids is done by the caller
models below); on a disposed editor the real call throws, modelled as `none`. -/
def deltaDecorations (e : EditorState) (old : List Nat)
    (extra : List (String × Nat)) : Option EditorState :=
  if e.isDisposed then none
  else some { e with decs := (e.decs.filter (fun m => decide (m.2 ∉ old))) ++ extra }

/-- Expiry callback scheduled by `renderRemoteCursor`:
`if (editor && !editor._isDisposed) { editor.deltaDecorations(decorations, []); }`.
The outer `Option` is normal termination (`none` would be an uncaught
exception); the inner `Option EditorState` is the captured editor reference. -/
def markerExpiry (ed : Option EditorState) (decorations : List Nat) :
    Option (Option EditorState) :=
  match ed with
  | none => some none
  | some e => if e.isDisposed then some (some e) else (deltaDecorations e decorations []).map some

/-- Whole-component state for the remote-cursor lifecycle: the editor, the
pending expiry timers as (fire time, decoration id) pairs, and a log of every
decoration id an expiry callback has removed. -/
structure CursorSys where
  ed : EditorState
  timers : List (Nat × Nat)
  removals : List Nat

/-- Function `renderRemoteCursor(editor, monaco, userId, position, user)`:
`editor.deltaDecorations([], [...])` installs one new decoration — the old
decoration list passed is `[]`, so nothing is removed — and `setTimeout`
schedules removal of exactly that decoration after the dwell time. -/
def renderRemoteCursor (dwell : Nat) (s : CursorSys) (now : Nat) (userId : String) :
    CursorSys :=
  { s with ed := { s.ed with decs := s.ed.decs ++ [(userId, s.ed.nextId)],
                             nextId := s.ed.nextId + 1 },
           timers := s.timers ++ [(now + dwell, s.ed.nextId)] }

/-- Run every expiry timer whose fire time has been reached. Each callback is
guarded as in `markerExpiry`: on a disposed editor it changes nothing. -/
def fireDue (s : CursorSys) (now : Nat) : CursorSys :=
  let due := s.timers.filter (fun p => decide (p.1 ≤ now))
  let rest := s.timers.filter (fun p => decide (¬ p.1 ≤ now))
  if s.ed.isDisposed then { s with timers := rest }
  else
    { s with ed := { s.ed with decs := s.ed.decs.filter (fun m => decide (m.2 ∉ due.map Prod.snd)) },
             timers := rest,
             removals := s.removals ++ due.map Prod.snd }

/-- Process a time-ordered list of `remote-cursor` events for one editor:
before each event, fire the timers already due, then render the marker. -/
def runCursor (dwell : Nat) : List (Nat × String) → CursorSys → CursorSys
  | [], s => s
  | (t, u) :: rest, s => runCursor dwell rest (renderRemoteCursor dwell (fireDue s t) t u)

/-- Initial component state: live editor, no decorations, no timers. -/
def cursorInit : CursorSys :=
  { ed := { isDisposed := false, decs := [], nextId := 0 }, timers := [], removals := [] }

/-- State observed at time `q` after a run: all timers due by `q` have fired. -/
def observeCursors (dwell : Nat) (evs : List (Nat × String)) (q : Nat) : CursorSys :=
  fireDue (runCursor dwell evs cursorInit) q

/-- Live markers owned by remote client `u` (decorations carry the owner in
their `remote-cursor-userId` class name). -/
def liveMarkers (s : CursorSys) (u : String) : List Nat :=
  (s.ed.decs.filter (fun m => m.1 == u)).map Prod.snd

/-- Events a mounted editor component reacts to, for the auto-save path: a
`onDidChangeModelContent` firing (with the resulting `editor.getValue()`), or
the `useEffect` cleanup running. -/
inductive EditorEv
  | change (content : String)
  | teardown

/-- State of the auto-save debouncer: the single pending `saveTimeout`
deadline (the handler does `clearTimeout` then `setTimeout(..., 2000)`, so at
most one is pending), the current editor content, the emitted `save-code`
messages as (time, content) pairs, and when the cleanup ran, if it did. -/
structure SaveSys where
  saveTimeout : Option Nat
  content : String
  saves : List (Nat × String)
  tornAt : Option Nat

/-- Fire the pending save timer if its deadline has been reached: emit
`save-code` with the content the editor holds at fire time. Nothing in the
code conditions this on the cleanup having run — the cleanup of
`src/components/Editor.js` (lines 220-231) destroys the binding and the ydoc
and unsubscribes three socket listeners, but never clears `saveTimeout`. -/
def fireSave (s : SaveSys) (now : Nat) : SaveSys :=
  match s.saveTimeout with
  | none => s
  | some dl =>
    if dl ≤ now then { s with saveTimeout := none, saves := s.saves ++ [(dl, s.content)] }
    else s

/-- Apply one editor event at time `t`: a content change runs
`clearTimeout(saveTimeout); saveTimeout = setTimeout(..., w)`; the cleanup
only records that it ran (it cancels no timer). -/
def stepEditor (w : Nat) (s : SaveSys) (t : Nat) : EditorEv → SaveSys
  | EditorEv.change c => { s with content := c, saveTimeout := some (t + w) }
  | EditorEv.teardown => { s with tornAt := some t }

/-- Process a time-ordered event list: before each event, fire the timer if
it is already due. -/
def runEditor (w : Nat) : List (Nat × EditorEv) → SaveSys → SaveSys
  | [], s => s
  | (t, e) :: rest, s => runEditor w rest (stepEditor w (fireSave s t) t e)

/-- Initial auto-save state: no pending timer, empty document. -/
def saveInit : SaveSys :=
  { saveTimeout := none, content := "", saves := [], tornAt := none }

/-- Auto-save state observed at time `q` after a run: the timer has fired if
due by `q`. -/
def observeSaves (w : Nat) (evs : List (Nat × EditorEv)) (q : Nat) : SaveSys :=
  fireSave (runEditor w evs saveInit) q

/-- Outbound wire encoding of a yjs delta, `Array.from(update)`: each byte of
the `Uint8Array` becomes one JS number, unchanged. -/
def wireEncode (update : List Nat) : List Nat := update

/-- Inbound reconstruction, `new Uint8Array(update)`: each transported number
is coerced to a byte (JS ToUint8 semantics, value mod 256). -/
def wireDecode (arr : List Nat) : List Nat := arr.map (fun x => x % 256)

/-- Modelled from the spec: the Document Replica's merge, `Y.applyUpdate` of
the yjs library, is not part of this repository's sources. Per spec sections
3 and 4.1 and the glossary, the replica's state is the set of
uniquely-identified, causally-stamped operations it has merged, a delta is
such a set, merging is set union (commutative, associative, idempotent), and
the content every replica displays is a deterministic function of that set. -/
def applyRemoteDelta (s d : Finset Nat) : Finset Nat := s ∪ d

/-- Modelled from the spec: the content a replica displays, a deterministic
function of the merged operation set (concretely, the operations in causal
order). -/
def replicaContent (s : Finset Nat) : List Nat := Finset.sort (· ≤ ·) s

/-- Concrete awareness instance: local client `"me"` whose state record lives
at address 0 and currently reads `{x: 1}`. -/
def awEx : SimpleAwareness Nat :=
  { clientID := "me",
    objs := fun n => if n = 0 then [("x", 1)] else [],
    nextAddr := 1,
    states := [("me", 0)],
    handlers := [],
    emitted := [] }

/-- C2, counterexample: `setLocalStateField` mutates the previous state object
in place. On `awEx` the previously obtained local record (the object at
address 0, `{x: 1}`) is changed by `setLocalStateField("y", 2)` — it now reads
`{x: 1, y: 2}` — refuting the claim that the previously obtained state object
is unchanged after the call. -/
theorem setLocalStateField_mutation_counterexample :
    (awEx.setLocalStateField "y" 2).objs 0 ≠ awEx.objs 0 := by decide

/-- C2, amended: `setLocalStateField(field, value)` leaves the local entry
pointing at the prior record's reference (or a freshly allocated one when no
prior state exists), and that record then equals the prior record with the one
field set — but the prior record is updated in place: any previously obtained
reference to it now shows the new contents (aliasing), rather than the old. -/
theorem setLocalStateField_spec (a : SimpleAwareness Nat) (f : String) (v : Nat) :
    (a.setLocalStateField f v).getLocalState = some (a.getLocalState.getD a.nextAddr) ∧
    (a.setLocalStateField f v).objs (a.getLocalState.getD a.nextAddr) =
      mapSet f v (a.getLocalState.elim [] a.objs) ∧
    (∀ p, a.getLocalState = some p →
      (a.setLocalStateField f v).objs p = mapSet f v (a.objs p)) := by
  cases h : a.getLocalState with
  | none =>
    refine ⟨?_, ?_, ?_⟩
    · simp [SimpleAwareness.setLocalStateField, SimpleAwareness.getLocalState,
        SimpleAwareness.setLocalState, h, SimpleAwareness.getLocalState] at h ⊢
      simp [h, mapGet_mapSet_self]
    · simp [SimpleAwareness.setLocalStateField, SimpleAwareness.getLocalState,
        SimpleAwareness.setLocalState] at h ⊢
      simp [h]
    · intro p hp
      exact absurd hp (by simp)
  | some addr =>
    refine ⟨?_, ?_, ?_⟩
    · simp [SimpleAwareness.setLocalStateField, SimpleAwareness.getLocalState,
        SimpleAwareness.setLocalState, h] at h ⊢
      simp [h, mapGet_mapSet_self]
    · simp [SimpleAwareness.setLocalStateField, SimpleAwareness.getLocalState,
        SimpleAwareness.setLocalState] at h ⊢
      simp [h]
    · intro p hp
      cases hp
      simp [SimpleAwareness.setLocalStateField, SimpleAwareness.getLocalState,
        SimpleAwareness.setLocalState] at h ⊢
      simp [h]

/-- C2, witness for the amended theorem at `awEx`, field `"y"`, value 2. -/
theorem setLocalStateField_spec_witness :
    (awEx.setLocalStateField "y" 2).objs 0 = mapSet "y" 2 (awEx.objs 0) :=
  (setLocalStateField_spec awEx "y" 2).2.2 0 (by decide)

/-- C9: `setLocalState` modifies only the local client's entry of the `states`
map — every other client's entry in `getStates()` is unchanged, and no stored
record is touched. -/
theorem setLocalState_frame (a : SimpleAwareness Nat) (addr : Nat) (c : String)
    (hc : c ≠ a.clientID) :
    mapGet c (a.setLocalState addr).getStates = mapGet c a.getStates ∧
    (a.setLocalState addr).objs = a.objs := by
  refine ⟨?_, rfl⟩
  simp [SimpleAwareness.setLocalState, SimpleAwareness.getStates,
    mapGet_mapSet_ne a.clientID c addr a.states hc]

/-- C9, witness at `awEx`, address 5, foreign client `"other"`. -/
theorem setLocalState_frame_witness :
    "other" ≠ awEx.clientID ∧
    mapGet "other" (awEx.setLocalState 5).getStates = mapGet "other" awEx.getStates :=
  ⟨by decide, (setLocalState_frame awEx 5 "other" (by decide)).1⟩

/-- C4: the `yjs-awareness` handler ignores updates carrying the local socket
id (state map, heap and subscribers untouched, `notify` not run), and for any
other client id replaces that client's stored state wholesale with the
message's state while leaving every other client's entry unchanged — so the
local client's entry is never changed by the remote handler. -/
theorem onYjsAwareness_guard (a : SimpleAwareness Nat) (cid : String)
    (st : List (String × Nat)) (hwf : a.WF) :
    (cid = a.clientID → onYjsAwareness a cid st = (a, false)) ∧
    (cid ≠ a.clientID →
      (onYjsAwareness a cid st).2 = true ∧
      (onYjsAwareness a cid st).1.stateView cid = some st ∧
      ∀ c, c ≠ cid → (onYjsAwareness a cid st).1.stateView c = a.stateView c) := by
  constructor
  · intro hcid
    simp [onYjsAwareness, hcid]
  · intro hcid
    refine ⟨?_, ?_, ?_⟩
    · simp [onYjsAwareness, hcid]
    · simp [onYjsAwareness, hcid, SimpleAwareness.stateView, mapGet_mapSet_self]
    · intro c hc
      simp only [onYjsAwareness, if_pos hcid, SimpleAwareness.stateView,
        mapGet_mapSet_ne cid c a.nextAddr a.states hc]
      cases hget : mapGet c a.states with
      | none => simp
      | some p =>
        have hlt : p < a.nextAddr := hwf (c, p) (mapGet_mem c p a.states hget)
        simp [Nat.ne_of_lt hlt]

/-- C4, witness: on `awEx` (well-formed heap) a remote update for `"you"`
leaves the local client `"me"`'s stored state unchanged. -/
theorem onYjsAwareness_guard_witness :
    awEx.WF ∧ ("you" : String) ≠ awEx.clientID ∧
    (onYjsAwareness awEx "you" [("k", 7)]).1.stateView "me" = awEx.stateView "me" :=
  ⟨by unfold SimpleAwareness.WF; decide, by decide,
    (((onYjsAwareness_guard awEx "you" [("k", 7)]
      (by unfold SimpleAwareness.WF; decide)).2 (by decide)).2.2) "me" (by decide)⟩

/-- C8: subscribing the same handler twice to the same event is idempotent —
the second `on(event, handler)` call leaves the awareness object unchanged
(handlers live in a per-event `Set`), and a single `notify(event)` afterwards
invokes that handler exactly once. -/
theorem on_idempotent (a : SimpleAwareness Nat) (e : String) (h : Nat)
    (hnd : (a.notifyCalls e).Nodup) :
    ((a.on e h).on e h = a.on e h) ∧
    List.count h (((a.on e h).on e h).notifyCalls e) = 1 := by
  cases hh : mapGet e a.handlers with
  | none =>
    have h1 : a.on e h = { a with handlers := mapSet e [h] a.handlers } := by
      simp [SimpleAwareness.on, hh]
    have hget : mapGet e (mapSet e [h] a.handlers) = some [h] := mapGet_mapSet_self e [h] a.handlers
    have h2 : (a.on e h).on e h = a.on e h := by
      rw [h1]
      simp [SimpleAwareness.on, hget, mapSet_same e [h] (mapSet e [h] a.handlers) hget]
    refine ⟨h2, ?_⟩
    rw [h2, h1]
    simp [SimpleAwareness.notifyCalls, hget]
  | some hs =>
    have hnd' : hs.Nodup := by
      simpa [SimpleAwareness.notifyCalls, hh] using hnd
    set hs' := if h ∈ hs then hs else hs ++ [h] with hhs'
    have hmem : h ∈ hs' := by
      rw [hhs']
      by_cases hin : h ∈ hs <;> simp [hin]
    have h1 : a.on e h = { a with handlers := mapSet e hs' a.handlers } := by
      simp [SimpleAwareness.on, hh, hhs']
    have hget : mapGet e (mapSet e hs' a.handlers) = some hs' := mapGet_mapSet_self e hs' a.handlers
    have h2 : (a.on e h).on e h = a.on e h := by
      rw [h1]
      simp [SimpleAwareness.on, hget, if_pos hmem, mapSet_same e hs' (mapSet e hs' a.handlers) hget]
    refine ⟨h2, ?_⟩
    rw [h2, h1]
    simp only [SimpleAwareness.notifyCalls, hget, Option.getD_some]
    rw [hhs']
    by_cases hin : h ∈ hs
    · simpa [hin] using List.count_eq_one_of_mem hnd' hin
    · simp [hin, List.count_append, List.count_eq_zero.mpr hin]

/-- C8, witness at `awEx`, event `"change"`, handler 3. -/
theorem on_idempotent_witness :
    (awEx.notifyCalls "change").Nodup ∧
    List.count 3 (((awEx.on "change" 3).on "change" 3).notifyCalls "change") = 1 :=
  ⟨by decide, (on_idempotent awEx "change" 3 (by decide)).2⟩

/-- C1, counterexample: two rapid `remote-cursor` events for the same client
`"u"` at times 0 and 1 (dwell 3) leave two live markers for `"u"` at time 2 —
`renderRemoteCursor` passes `[]` as the old-decorations argument of
`deltaDecorations`, so the new event does not remove the previous marker. -/
theorem remoteCursor_uniqueness_counterexample :
    ¬ (liveMarkers (observeCursors 3 [(0, "u"), (1, "u")] 2) "u").length ≤ 1 := by decide

/-- C1, amended: handling a new `remote-cursor` event for a client installs a
new marker WITHOUT removing that client's previous one, so rapid events within
the dwell window leave several live markers for one owner (two events give two
markers); each marker is still removed exactly once, by the expiry of its own
dwell timer — never by supersession — after which no marker remains. -/
theorem renderRemoteCursor_no_supersession (t0 t1 d q q2 : Nat) (u : String)
    (h01 : t0 < t1) (hrapid : t1 < t0 + d) (hq2 : q < t0 + d)
    (hq3 : t1 + d ≤ q2) :
    (liveMarkers (observeCursors d [(t0, u), (t1, u)] q) u).length = 2 ∧
    (observeCursors d [(t0, u), (t1, u)] q2).removals = [0, 1] ∧
    liveMarkers (observeCursors d [(t0, u), (t1, u)] q2) u = [] := by
  have d1 : decide (t0 + d ≤ t1) = false := by
    simp only [decide_eq_false_iff_not]
    omega
  have d1' : decide (¬ t0 + d ≤ t1) = true := by
    simp only [decide_eq_true_eq]
    omega
  have d1'' : decide (t1 < t0 + d) = true := by
    simp only [decide_eq_true_eq]
    omega
  have hrun : runCursor d [(t0, u), (t1, u)] cursorInit =
      { ed := { isDisposed := false, decs := [(u, 0), (u, 1)], nextId := 2 },
        timers := [(t0 + d, 0), (t1 + d, 1)], removals := [] } := by
    simp [runCursor, fireDue, renderRemoteCursor, cursorInit, d1, d1', d1'']
  refine ⟨?_, ?_, ?_⟩
  · have d2 : decide (t0 + d ≤ q) = false := by
      simp only [decide_eq_false_iff_not]
      omega
    have d3 : decide (t1 + d ≤ q) = false := by
      simp only [decide_eq_false_iff_not]
      omega
    simp [observeCursors, hrun, fireDue, liveMarkers, d2, d3]
  · have e1 : decide (t0 + d ≤ q2) = true := by
      simp only [decide_eq_true_eq]
      omega
    have e2 : decide (t1 + d ≤ q2) = true := by
      simp only [decide_eq_true_eq]
      omega
    simp [observeCursors, hrun, fireDue, liveMarkers, e1, e2]
  · have e1 : decide (t0 + d ≤ q2) = true := by
      simp only [decide_eq_true_eq]
      omega
    have e2 : decide (t1 + d ≤ q2) = true := by
      simp only [decide_eq_true_eq]
      omega
    simp [observeCursors, hrun, fireDue, liveMarkers, e1, e2]

/-- C1, witness for the amended theorem: events at 0 and 1, dwell 3, observed
at time 2 and again at time 5. -/
theorem renderRemoteCursor_no_supersession_witness :
    (liveMarkers (observeCursors 3 [(0, "u"), (1, "u")] 2) "u").length = 2 ∧
    (observeCursors 3 [(0, "u"), (1, "u")] 5).removals = [0, 1] :=
  ⟨(renderRemoteCursor_no_supersession 0 1 3 2 5 "u" (by decide) (by decide)
      (by decide) (by decide)).1,
   (renderRemoteCursor_no_supersession 0 1 3 2 5 "u" (by decide) (by decide)
      (by decide) (by decide)).2.1⟩

/-- C7: a marker-expiry timer firing after the editor is gone or disposed is a
no-op and not an exception — the guarded callback returns normally leaving the
editor untouched, and only a live, undisposed editor has the decorations
removed. -/
theorem markerExpiry_disposed_noop (e : EditorState) (ids : List Nat) :
    markerExpiry none ids = some none ∧
    (e.isDisposed = true → markerExpiry (some e) ids = some (some e)) ∧
    (e.isDisposed = false →
      markerExpiry (some e) ids =
        some (some { e with decs := e.decs.filter (fun m => decide (m.2 ∉ ids)) })) := by
  refine ⟨rfl, ?_, ?_⟩
  · intro hd
    simp [markerExpiry, hd]
  · intro hd
    simp [markerExpiry, deltaDecorations, hd]

/-- Concrete disposed editor used to witness C7. -/
def edDisposed : EditorState :=
  { isDisposed := true, decs := [("u", 0)], nextId := 1 }

/-- C7, witness: firing the expiry callback on the disposed `edDisposed` (and
on a missing editor) terminates normally and changes nothing. -/
theorem markerExpiry_disposed_noop_witness :
    edDisposed.isDisposed = true ∧ markerExpiry (some edDisposed) [0] = some (some edDisposed) :=
  ⟨rfl, (markerExpiry_disposed_noop edDisposed [0]).2.1 rfl⟩

/-- C3: the `useEffect` cleanup never clears `saveTimeout` (the variable is
local to `handleEditorDidMount` and the cleanup only destroys the binding and
the ydoc and unsubscribes three socket listeners), so a save scheduled before
teardown still fires afterwards: with window 2, an edit at time 0 followed by
teardown at time 1 emits `save-code` at time 2, after the teardown. -/
theorem save_emitted_after_teardown :
    (observeSaves 2 [(0, EditorEv.change "x"), (1, EditorEv.teardown)] 3).saves = [(2, "x")] ∧
    (observeSaves 2 [(0, EditorEv.change "x"), (1, EditorEv.teardown)] 3).tornAt = some 1 := by
  constructor
  · decide
  · decide

/-- Burst invariant for the debouncer: while every next change event arrives
before the pending deadline, the timer is reset without firing, the content
tracks the latest event, and no save is emitted. -/
theorem runEditor_burst (w : Nat) (l : List (Nat × String)) :
    ∀ (tp : Nat) (cp : String) (S : List (Nat × String)) (τ : Option Nat),
      List.Chain' (fun a b => a.1 < b.1 ∧ b.1 < a.1 + w) ((tp, cp) :: l) →
      runEditor w (l.map (fun p => (p.1, EditorEv.change p.2)))
          { saveTimeout := some (tp + w), content := cp, saves := S, tornAt := τ }
        = { saveTimeout := some ((l.getLastD (tp, cp)).1 + w),
            content := (l.getLastD (tp, cp)).2, saves := S, tornAt := τ } := by
  induction l with
  | nil =>
    intro tp cp S τ _
    simp [runEditor]
  | cons p rest ih =>
    intro tp cp S τ hch
    obtain ⟨t1, c1⟩ := p
    have hstep : (t1 < tp + w) ∧ List.Chain' (fun a b => a.1 < b.1 ∧ b.1 < a.1 + w) ((t1, c1) :: rest) := by
      rw [List.chain'_cons] at hch
      exact ⟨hch.1.2, hch.2⟩
    have hfire : fireSave
        { saveTimeout := some (tp + w), content := cp, saves := S, tornAt := τ } t1
        = { saveTimeout := some (tp + w), content := cp, saves := S, tornAt := τ } := by
      simp [fireSave]
      omega
    simp only [List.map_cons, runEditor, hfire, stepEditor, List.getLastD_cons]
    exact ih t1 c1 S τ hstep.2

/-- C5: under a burst of content-change events each arriving before the
pending debounce deadline, zero `save-code` messages are emitted during the
burst and exactly one is emitted, one debounce window after the last event,
carrying the content as of the last event. -/
theorem debounce_collapsing (w t0 q : Nat) (c0 : String) (rest : List (Nat × String))
    (hchain : List.Chain' (fun a b => a.1 < b.1 ∧ b.1 < a.1 + w) ((t0, c0) :: rest))
    (hq : (rest.getLastD (t0, c0)).1 + w ≤ q) :
    (observeSaves w (((t0, c0) :: rest).map (fun p => (p.1, EditorEv.change p.2))) q).saves
      = [((rest.getLastD (t0, c0)).1 + w, (rest.getLastD (t0, c0)).2)] := by
  have h0 : stepEditor w (fireSave saveInit t0) t0 (EditorEv.change c0)
      = { saveTimeout := some (t0 + w), content := c0, saves := [], tornAt := none } := by
    simp [fireSave, saveInit, stepEditor]
  simp only [observeSaves, List.map_cons, runEditor, h0]
  rw [runEditor_burst w rest t0 c0 [] none hchain]
  simp only [fireSave]
  rw [if_pos hq]
  simp

/-- C5, witness: changes at times 0, 1, 2 with window 5 produce exactly one
save, at time 7, carrying the content of the last change. -/
theorem debounce_collapsing_witness :
    (observeSaves 5 [(0, EditorEv.change "a"), (1, EditorEv.change "b"),
        (2, EditorEv.change "c")] 7).saves = [(7, "c")] := by
  have h := debounce_collapsing 5 0 7 "a" [(1, "b"), (2, "c")]
    (by simp [List.chain'_cons]) (by simp)
  simpa using h

/-- C6: merging a delta into a replica is idempotent — re-applying a delta
already merged (a delta contained in the state, and in particular a delta
just applied) leaves the replica's content unchanged — and merging a set of
deltas in any order yields identical content. -/
theorem applyRemoteDelta_idem_comm (s d : Finset Nat) (l l' : List (Finset Nat))
    (hd : d ⊆ s) (hp : List.Perm l l') :
    applyRemoteDelta (applyRemoteDelta s d) d = applyRemoteDelta s d ∧
    replicaContent (applyRemoteDelta s d) = replicaContent s ∧
    replicaContent (List.foldl applyRemoteDelta s l)
      = replicaContent (List.foldl applyRemoteDelta s l') := by
  refine ⟨?_, ?_, ?_⟩
  · simp [applyRemoteDelta, Finset.union_assoc]
  · simp [applyRemoteDelta, replicaContent, Finset.union_eq_left.mpr hd]
  · have hfold : ∀ (l₁ l₂ : List (Finset Nat)), List.Perm l₁ l₂ →
        ∀ s₀ : Finset Nat,
          List.foldl applyRemoteDelta s₀ l₁ = List.foldl applyRemoteDelta s₀ l₂ := by
      intro l₁ l₂ hperm
      induction hperm with
      | nil => intro s₀; rfl
      | cons x _ ih => intro s₀; simp only [List.foldl]; exact ih _
      | swap x y l =>
        intro s₀
        simp only [List.foldl, applyRemoteDelta, Finset.union_right_comm]
      | trans _ _ ih1 ih2 => intro s₀; rw [ih1, ih2]
    rw [hfold l l' hp s]

/-- C6, witness: on the replica `{1, 2}`, re-applying the merged delta `{1}`
changes nothing and the deltas `{3}` and `{4}` commute. -/
theorem applyRemoteDelta_idem_comm_witness :
    ({1} : Finset Nat) ⊆ {1, 2} ∧
    List.Perm [({3} : Finset Nat), {4}] [{4}, {3}] ∧
    replicaContent (List.foldl applyRemoteDelta ({1, 2} : Finset Nat) [{3}, {4}])
      = replicaContent (List.foldl applyRemoteDelta ({1, 2} : Finset Nat) [{4}, {3}]) :=
  ⟨by decide, by decide,
    (applyRemoteDelta_idem_comm {1, 2} {1} [{3}, {4}] [{4}, {3}]
      (by decide) (by decide)).2.2⟩

/-- C10: the delta wire encoding round-trips — converting an update's bytes to
a plain number array for transport (`Array.from`) and rebuilding a byte array
on receipt (`new Uint8Array`) returns exactly the original bytes, since every
byte is below 256. -/
theorem wire_roundtrip (update : List Nat) (hb : ∀ b ∈ update, b < 256) :
    wireDecode (wireEncode update) = update := by
  unfold wireEncode wireDecode
  revert hb
  induction update with
  | nil => intro _; rfl
  | cons a l ih =>
    intro hb
    have ha : a < 256 := hb a (by simp)
    have hl : ∀ b ∈ l, b < 256 := fun b hm => hb b (by simp [hm])
    simp [Nat.mod_eq_of_lt ha, ih hl]

/-- C10, witness on the update `[0, 17, 255]`. -/
theorem wire_roundtrip_witness :
    (∀ b ∈ [0, 17, 255], b < 256) ∧ wireDecode (wireEncode [0, 17, 255]) = [0, 17, 255] :=
  ⟨by decide, wire_roundtrip [0, 17, 255] (by decide)⟩
